import Mathlib

/-!
Verification development for a two-process robot simulation:
`robot.py` (an agent process owning position / battery / suspension state)
and `master.py` (an orchestrator spawning agents, tracking a room grid and
a treasure ledger, and exchanging line-oriented commands over pipes).

The Python code is shallowly embedded: pure methods become Lean functions,
the mutable objects become explicit state records, the pipe / signal
environment becomes explicit event parameters, and Python exceptions become
`Except` values.  Machine integers are modelled as `Int` (Python ints are
unbounded), counters as `Nat`.
-/

/-! ## String helpers modelling Python primitives -/

/-- Predicate `leadsWith needle hay`: holds when `needle` is a leading segment of `hay`
(used to build the substring test below). -/
def leadsWith : List Char → List Char → Bool
  | [], _ => true
  | _ :: _, [] => false
  | a :: as, b :: bs => a == b && leadsWith as bs

/-- Predicate `occursIn needle hay`: `needle` occurs contiguously inside `hay`. -/
def occursIn (needle : List Char) : List Char → Bool
  | [] => leadsWith needle []
  | c :: t => leadsWith needle (c :: t) || occursIn needle t

/-- Model of the Python expression `sub in s` on strings (substring test). -/
def strIn (sub s : String) : Bool := occursIn sub.toList s.toList

/-- Model of Python `str.strip()` (restricted to whitespace stripping). -/
def pyStrip (s : String) : String :=
  String.mk (((s.toList.dropWhile Char.isWhitespace).reverse.dropWhile Char.isWhitespace).reverse)

/-- Worker for `pySplit`: accumulates the current token (reversed) while
scanning the character list. -/
def splitWSAux : List Char → List Char → List String
  | [], acc => if acc = [] then [] else [String.mk acc.reverse]
  | c :: cs, acc =>
    if c.isWhitespace then
      if acc = [] then splitWSAux cs []
      else String.mk acc.reverse :: splitWSAux cs []
    else splitWSAux cs (c :: acc)

/-- Model of Python `str.split()` with no argument: split on runs of
whitespace, discarding empty tokens (leading/trailing whitespace included). -/
def pySplit (s : String) : List String := splitWSAux s.toList []

/-- Decimal value of a digit character, `none` for non-digits. -/
def digitVal (c : Char) : Option Nat :=
  if '0' ≤ c ∧ c ≤ '9' then some (c.toNat - '0'.toNat) else none

/-- Reads a non-empty all-digit character list as a natural number. -/
def natOfDigitsAux : List Char → Nat → Option Nat
  | [], acc => some acc
  | c :: cs, acc =>
    match digitVal c with
    | none => none
    | some d => natOfDigitsAux cs (acc * 10 + d)

/-- Model of Python `int(s)`: optional sign followed by one or more digits,
surrounding whitespace ignored; `none` models the `ValueError` outcome. -/
def pyInt (s : String) : Option Int :=
  match (pyStrip s).toList with
  | [] => none
  | '-' :: cs => if cs = [] then none else (natOfDigitsAux cs 0).map (fun n => -(n : Int))
  | '+' :: cs => if cs = [] then none else (natOfDigitsAux cs 0).map (fun n => (n : Int))
  | cs => (natOfDigitsAux cs 0).map (fun n => (n : Int))

/-! ## The static room collaborator (`sensor.py`, out of scope as code)

`sensor.Sensor` is an external collaborator: both processes load it from the
room file and only call `dimensions()`, `n_treasures()`, `with_obstacle(r,c)`
and `with_treasure(r,c)`.  It is modelled as an abstract record of those four
pure lookups. -/

structure Sensor where
  rows : Int
  cols : Int
  n_treasures : Nat
  with_obstacle : Int → Int → Bool
  with_treasure : Int → Int → Bool

/-- Method `Sensor.dimensions()` returns the `(rows, cols)` pair. -/
def Sensor.dimensions (s : Sensor) : Int × Int := (s.rows, s.cols)

/-! ## The agent (`robot.py`) -/

/-- Live state of one robot process (`Robot.__init__`); the sensor is the
robot's own copy of the static room data.  `__init__` sets
`suspended = False` (see `Robot.init` below). -/
structure Robot where
  id : Int
  position : Int × Int
  battery : Int
  suspended : Bool
  sensor : Sensor

/-- Constructor `Robot.__init__(id, position, battery, room_file)`. -/
def Robot.init (id : Int) (position : Int × Int) (battery : Int) (sensor : Sensor) : Robot :=
  { id := id, position := position, battery := battery, suspended := false, sensor := sensor }

/-- Method `Robot.calculate_new_position`: direction vector applied to the current
position; any unrecognised direction string falls through to the current
position itself. -/
def Robot.calculate_new_position (r : Robot) (direction : String) : Int × Int :=
  if direction = "up" then (r.position.1 - 1, r.position.2)
  else if direction = "down" then (r.position.1 + 1, r.position.2)
  else if direction = "left" then (r.position.1, r.position.2 - 1)
  else if direction = "right" then (r.position.1, r.position.2 + 1)
  else r.position

/-- Method `Robot.valid_move`: inside the room bounds and free of obstacles;
live robot positions are deliberately not consulted. -/
def Robot.valid_move (r : Robot) (new_position : Int × Int) : Bool :=
  if new_position.1 < 0 ∨ new_position.2 < 0 then false
  else if r.sensor.rows ≤ new_position.1 ∨ r.sensor.cols ≤ new_position.2 then false
  else ! r.sensor.with_obstacle new_position.1 new_position.2

/-- Method `Robot.battery_decrease` (the file declares it twice with identical
bodies; this is the single canonical copy): floor at 0, no effect while
suspended. -/
def Robot.battery_decrease (r : Robot) (number : Int) : Robot :=
  if ! r.suspended then { r with battery := max 0 (r.battery - number) } else r

/-- Method `Robot.move`: returns the updated robot and the reply line it prints
(`"OK"` or `"KO"`). -/
def Robot.move (r : Robot) (direction : String) : Robot × String :=
  if r.suspended then (r, "KO")
  else if r.battery < 5 then (r, "KO")
  else
    let new_position := r.calculate_new_position direction
    if r.valid_move new_position then
      (({ r with position := new_position }).battery_decrease 5, "OK")
    else (r, "KO")

/-- The asynchronous signals the robot process installs handlers for. -/
inductive RSig
  | sigint   -- suspend
  | sigquit  -- resume
  | sigtstp  -- print status (no state change)
  | sigusr1  -- battery refill
  | sigalrm  -- 1 Hz battery timer
deriving DecidableEq

/-- Handler `signal_handler` in `robot.py`: the only state mutations are the
suspension flag, the unconditional refill to 100, and the 1-point drain. -/
def signal_handler (r : Robot) : RSig → Robot
  | .sigquit => { r with suspended := false }
  | .sigint => { r with suspended := true }
  | .sigtstp => r
  | .sigusr1 => { r with battery := 100 }
  | .sigalrm => r.battery_decrease 1

/-- One event in the robot's lifetime: a line arriving on stdin, or a
signal delivery (the alarm tick included). -/
inductive REvent
  | line (s : String)
  | sig (s : RSig)
deriving DecidableEq

/-- One iteration of the robot's main loop / signal handler, restricted to
its effect on the robot state.  `bat`, `pos`, `tr` and unknown commands only
print; `exit` terminates the process without mutating the state first. -/
def robot_step (r : Robot) : REvent → Robot
  | .sig s => signal_handler r s
  | .line input =>
    let command := pyStrip input
    if command = "" then r
    else
      let parts := pySplit command
      if parts.head? = some "mv" ∧ parts.length = 2 then (r.move (parts.getD 1 "")).1
      else if command = "bat" then r
      else if command = "pos" then r
      else if command = "tr" then r
      else if command = "exit" then r
      else r

/-- The robot state after a sequence of events. -/
def runRobot (r : Robot) (events : List REvent) : Robot :=
  events.foldl robot_step r

/-! ## The orchestrator (`master.py`)

The master's observable state: the sensor copy, the treasure ledger, the
believed robot positions, and the room-knowledge grid.  Pids and pipe
objects are process-level resources and stay outside the model; the pipe
traffic enters through explicit `ChannelOutcome` parameters.  `terminated`
records that `exit_program` (which ends in `sys.exit(0)`) has run. -/

structure Master where
  sensor : Sensor
  dimensions : Int × Int
  n_treasures : Nat
  treasures_found : Nat
  robots : List (Int × (Int × Int))
  room_info : Int → Int → String
  discovered_treasures : Finset (Int × Int)
  treasure_positions : Int → Int → Bool
  terminated : Bool

/-- Writes one grid cell (`self.room_info[row][col] = v`). -/
def setCell (g : Int → Int → String) (p : Int × Int) (v : String) : Int → Int → String :=
  fun r c => if r = p.1 ∧ c = p.2 then v else g r c

/-- Lookup `self.robots[robot_id]`; `none` models the `KeyError` case. -/
def lookupRobot (m : Master) (rid : Int) : Option (Int × Int) :=
  (m.robots.find? (fun p => p.1 == rid)).map Prod.snd

/-- Assignment `self.robots[robot_id]["position"] = newPos`. -/
def setRobotPos (robots : List (Int × (Int × Int))) (rid : Int) (pos : Int × Int) :
    List (Int × (Int × Int)) :=
  robots.map (fun p => if p.1 == rid then (p.1, pos) else p)

/-- Method `initialize_room_info` (the later, canonical redeclaration): grid cells
are `"X"` on obstacles and `"?"` elsewhere.  The Python grid only has
in-bounds cells; the function model returns `"?"` out of bounds, which the
code never reads. -/
def init_room_info_grid (s : Sensor) : Int → Int → String :=
  fun i j =>
    if 0 ≤ i ∧ i < s.rows ∧ 0 ≤ j ∧ j < s.cols ∧ s.with_obstacle i j then "X" else "?"

/-- The `treasure_positions` set built by the same double loop: in-bounds
cells that are not obstacles (the `elif`!) and carry a treasure. -/
def init_treasure_positions (s : Sensor) : Int → Int → Bool :=
  fun i j =>
    decide (0 ≤ i ∧ i < s.rows ∧ 0 ≤ j ∧ j < s.cols) &&
      (! s.with_obstacle i j) && s.with_treasure i j

/-- Constructor `Master.__init__` up to (and including) `initialize_room_info`, before
`initialize_robots` runs. -/
def Master.init (s : Sensor) : Master :=
  { sensor := s
    dimensions := s.dimensions
    n_treasures := s.n_treasures
    treasures_found := 0
    robots := []
    room_info := init_room_info_grid s
    discovered_treasures := ∅
    treasure_positions := init_treasure_positions s
    terminated := false }

/-- Outcome of one pipe interaction with a robot process, from the master's
point of view: the liveness probe fails (`ProcessLookupError`), an
`IOError`/`BrokenPipeError` is raised on either direction, `select` times
out after 2 s, or a reply line arrives. -/
inductive ChannelOutcome
  | dead
  | ioFault
  | timeout
  | reply (line : String)
deriving DecidableEq

/-- Result of `send_command`: updated master, the string it returns, and
whether a best-effort `SIGTERM` was issued to the robot's process. -/
structure SendResult where
  m : Master
  resp : String
  killed : Bool

/-- Method `exit_program`: queries each robot's final position and battery (replies
that never contain the treasure marker in the synchronous protocol), closes
the pipes, waits for the children and calls `sys.exit(0)`.  On the modelled
fields its effect is exactly the terminated flag. -/
def exit_program (m : Master) : Master := { m with terminated := true }

/-- Method `Master.send_command`.  `Error` is returned on a dead process, an I/O
fault (with a best-effort `SIGTERM`), or a 2-second timeout (with no
`SIGTERM`).  A reply containing `"Treasure"` increments the ledger, marks
the robot's believed cell `"T"`, and runs `exit_program` when the ledger
reaches the total; `discovered_treasures` is not touched on this path. -/
def send_command (m : Master) (robot_id : Int) (command : String) (o : ChannelOutcome) :
    Except Unit SendResult :=
  match lookupRobot m robot_id with
  | none => .error ()
  | some pos =>
    match o with
    | .dead => .ok ⟨m, "Error", false⟩
    | .ioFault => .ok ⟨m, "Error", true⟩
    | .timeout => .ok ⟨m, "Error", false⟩
    | .reply line =>
      if strIn "Treasure" line then
        let m1 : Master := { m with
          treasures_found := m.treasures_found + 1
          room_info := setCell m.room_info pos "T" }
        if m1.treasures_found = m1.n_treasures then
          .ok ⟨exit_program m1, line, false⟩
        else
          .ok ⟨m1, line, false⟩
      else
        .ok ⟨m, line, false⟩

/-- The direction table at the top of `Master.move_robot` (same vectors as
the agent's `calculate_new_position`, an unknown direction falling through
to the old position). -/
def new_position_of (oldPos : Int × Int) (direction : String) : Int × Int :=
  if direction = "up" then (oldPos.1 - 1, oldPos.2)
  else if direction = "down" then (oldPos.1 + 1, oldPos.2)
  else if direction = "left" then (oldPos.1, oldPos.2 - 1)
  else if direction = "right" then (oldPos.1, oldPos.2 + 1)
  else oldPos

/-- The old-cell handling at the start of `move_robot`'s `"OK"` branch:
release the cell to `T` if it held a treasure, else `-`, but only when no
other robot is recorded there. -/
def release_old_cell (m1 : Master) (robot_id : Int) (oldPos : Int × Int) :
    Int → Int → String :=
  let old_pos_has_robot := m1.robots.any (fun p => p.1 != robot_id && p.2 == oldPos)
  if old_pos_has_robot then m1.room_info
  else if m1.treasure_positions oldPos.1 oldPos.2 then setCell m1.room_info oldPos "T"
  else setCell m1.room_info oldPos "-"

/-- The `"OK"`-reply branch of `Master.move_robot`: release the old cell
via `release_old_cell`, occupy the new cell (`RT`/`R`), and on a freshly
discovered treasure update ledger and set together, running `exit_program`
when the ledger reaches the total — `sys.exit` then fires *before* the
believed position is updated. -/
def move_robot_apply_ok (m1 : Master) (robot_id : Int) (oldPos newPos : Int × Int) :
    Master × Bool :=
  let g1 := release_old_cell m1 robot_id oldPos
  if m1.treasure_positions newPos.1 newPos.2 then
    if newPos ∉ m1.discovered_treasures then
      let m2 : Master := { m1 with
        room_info := setCell g1 newPos "RT"
        treasures_found := m1.treasures_found + 1
        discovered_treasures := insert newPos m1.discovered_treasures }
      if m2.treasures_found = m2.n_treasures then (exit_program m2, true)
      else ({ m2 with robots := setRobotPos m2.robots robot_id newPos }, true)
    else
      ({ m1 with room_info := setCell g1 newPos "RT"
                 robots := setRobotPos m1.robots robot_id newPos }, true)
  else
    ({ m1 with room_info := setCell g1 newPos "R"
               robots := setRobotPos m1.robots robot_id newPos }, true)

/-- Method `Master.move_robot`.  The collision pre-check against every other
recorded robot position aborts before any I/O; then the `mv` command goes
through `send_command` (whose treasure handling, `sys.exit` included, runs
first on the reply), and an `"OK"`-containing response commits the movement
via `move_robot_apply_ok`. -/
def move_robot (m : Master) (robot_id : Int) (direction : String) (o : ChannelOutcome) :
    Except Unit (Master × Bool) :=
  match lookupRobot m robot_id with
  | none => .error ()
  | some oldPos =>
    let newPos := new_position_of oldPos direction
    if m.robots.any (fun p => p.1 != robot_id && p.2 == newPos) then
      .ok (m, false)
    else
      match send_command m robot_id ("mv " ++ direction) o with
      | .error e => .error e
      | .ok sr =>
        if sr.m.terminated then .ok (sr.m, false)
        else if strIn "OK" sr.resp then
          .ok (move_robot_apply_ok sr.m robot_id oldPos newPos)
        else .ok (sr.m, false)

/-- Outcome of `initialize_robots`: success, or `sys.exit(1)` after an
invalid start position; `m` carries the state (robots already spawned
included) at that point. -/
inductive InitResult
  | ok (m : Master)
  | configError (m : Master) (exitCode : Nat)

/-- The master state carried by an `InitResult`. -/
def InitResult.getMaster : InitResult → Master
  | .ok m => m
  | .configError m _ => m

/-- The exit status when initialization aborted. -/
def InitResult.exitCode? : InitResult → Option Nat
  | .ok _ => none
  | .configError _ c => some c

/-- The spawning loop of `initialize_robots`, one start position at a time:
validate (obstacle, then occupancy against the robots registered so far),
spawn (fork/exec and pipes are external), register, and record the start
cell — `RT` plus ledger/set update on a treasure, `R` otherwise.  No
termination check happens here even when the ledger reaches the total. -/
def init_robots_from (s : Sensor) (m : Master) (i : Int) : List (Int × Int) → InitResult
  | [] => .ok m
  | (row, col) :: rest =>
    if s.with_obstacle row col then .configError m 1
    else if m.robots.any (fun p => p.2 == (row, col)) then .configError m 1
    else
      let m1 : Master :=
        if m.treasure_positions row col then
          { m with
            robots := m.robots ++ [(i, (row, col))]
            room_info := setCell m.room_info (row, col) "RT"
            discovered_treasures := insert (row, col) m.discovered_treasures
            treasures_found := m.treasures_found + 1 }
        else
          { m with
            robots := m.robots ++ [(i, (row, col))]
            room_info := setCell m.room_info (row, col) "R" }
      init_robots_from s m1 (i + 1) rest

/-- Constructor `Master.__init__` followed by `initialize_robots` on the parsed start
position list (`enumerate(..., 1)` numbers the robots from 1). -/
def init_robots (s : Sensor) (positions : List (Int × Int)) : InitResult :=
  init_robots_from s (Master.init s) 1 positions

/-! ## Operator command dispatch (`Master.handle_command` and `main`) -/

/-- Command `mv all`: move every robot in ascending id order; once `exit_program`
has run (`sys.exit` inside a move) the remaining iterations never execute. -/
def moveAll (m : Master) (direction : String) (ch : Int → ChannelOutcome) :
    Except Unit Master :=
  ((m.robots.map Prod.fst).insertionSort (· ≤ ·)).foldlM
    (fun acc rid =>
      if acc.terminated then pure acc
      else (move_robot acc rid direction (ch rid)).map Prod.fst) m

/-- Commands `bat all` / `pos all`: send the command to every robot in registration
order; iterations after a `sys.exit` inside `send_command` never execute. -/
def sendToAll (m : Master) (command : String) (ch : Int → ChannelOutcome) :
    Except Unit Master :=
  (m.robots.map Prod.fst).foldlM
    (fun acc rid =>
      if acc.terminated then pure acc
      else (send_command acc rid command (ch rid)).map SendResult.m) m

/-- Method `Master.handle_command`, restricted to its effect on the master state.
`ch rid` supplies the pipe outcome for the (at most one) interaction with
robot `rid`.  A `.error` result is the uncaught `KeyError` raised by a
`self.robots[rid]` lookup on an unknown id — the surrounding
`except ValueError` clauses do not catch it.  Diagnostic-only paths
(malformed commands, unparseable ids) return the state unchanged. -/
def handle_command (m : Master) (command : String) (ch : Int → ChannelOutcome) :
    Except Unit Master :=
  match pySplit command with
  | [] => .ok m
  | p0 :: rest =>
    if p0 = "mv" then
      match rest with
      | [robot_id, direction] =>
        if robot_id = "all" then moveAll m direction ch
        else
          match pyInt robot_id with
          | none => .ok m
          | some rid => (move_robot m rid direction (ch rid)).map Prod.fst
      | _ => .ok m
    else if p0 = "print" then .ok m
    else if p0 = "bat" then
      match rest with
      | [robot_id] =>
        if robot_id = "all" then sendToAll m "bat" ch
        else
          match pyInt robot_id with
          | none => .ok m
          | some rid => (send_command m rid "bat" (ch rid)).map SendResult.m
      | _ => .ok m
    else if p0 = "pos" then
      match rest with
      | [robot_id] =>
        if robot_id = "all" then sendToAll m "pos" ch
        else
          match pyInt robot_id with
          | none => .ok m
          | some rid => (send_command m rid "pos" (ch rid)).map SendResult.m
      | _ => .ok m
    else if p0 = "suspend" then
      match rest with
      | [robot_id] =>
        if robot_id = "all" then .ok m
        else
          match pyInt robot_id with
          | none => .ok m
          | some rid =>
            match lookupRobot m rid with
            | none => .error ()
            | some _ => .ok m
      | _ => .ok m
    else if p0 = "resume" then
      match rest with
      | [robot_id] =>
        if robot_id = "all" then .ok m
        else
          match pyInt robot_id with
          | none => .ok m
          | some rid =>
            match lookupRobot m rid with
            | none => .error ()
            | some _ => .ok m
      | _ => .ok m
    else if p0 = "exit" then .ok (exit_program m)
    else .ok m

/-- Fate of one iteration of the `while True` loop in `master.main`. -/
inductive LoopResult
  | next (m : Master)
  | exited
  | crashed

/-- One iteration of `master.main`'s loop: `input()` raising `EOFError`
breaks the loop; an uncaught exception propagating from `handle_command`
(nothing but `EOFError` is caught there) kills the orchestrator process;
`sys.exit` inside a handler ends the process normally. -/
def main_step (m : Master) (input : Option String) (ch : Int → ChannelOutcome) : LoopResult :=
  match input with
  | none => .exited
  | some command =>
    match handle_command m command ch with
    | .ok m1 => if m1.terminated then .exited else .next m1
    | .error _ => .crashed

/-! ## Orchestrator operations as a transition system -/

/-- The two protocol-bearing orchestrator operations the temporal claims
quantify over, each carrying its pipe outcome. -/
inductive MOp
  | sendCmd (rid : Int) (command : String) (o : ChannelOutcome)
  | moveRobot (rid : Int) (direction : String) (o : ChannelOutcome)

/-- The master state an (unguarded) `send_command` call leaves behind; an
uncaught `KeyError` freezes the state as the process dies. -/
def stepSend (m : Master) (rid : Int) (c : String) (o : ChannelOutcome) : Master :=
  match send_command m rid c o with
  | .ok sr => sr.m
  | .error _ => m

/-- The master state an (unguarded) `move_robot` call leaves behind. -/
def stepMove (m : Master) (rid : Int) (d : String) (o : ChannelOutcome) : Master :=
  match move_robot m rid d o with
  | .ok r => r.1
  | .error _ => m

/-- One orchestrator operation.  After `exit_program` the process is gone,
so a terminated state is absorbing. -/
def stepM (m : Master) (op : MOp) : Master :=
  if m.terminated then m
  else
    match op with
    | .sendCmd rid c o => stepSend m rid c o
    | .moveRobot rid d o => stepMove m rid d o

/-- The master state after a sequence of operations. -/
def runM (m : Master) (ops : List MOp) : Master :=
  ops.foldl stepM m

/-- Synchronous-protocol restriction: a `mv` command is only ever answered
by `"OK"` or `"KO"` (`Robot.move` prints nothing else), while other
commands are unrestricted. -/
def opSync : MOp → Prop
  | .sendCmd _ _ _ => True
  | .moveRobot _ _ o => o = .dead ∨ o = .ioFault ∨ o = .timeout ∨
      o = .reply "OK" ∨ o = .reply "KO"

/-! ## Statement-side specification helpers -/

/-- A start position is acceptable w.r.t. the positions already taken:
not an obstacle and not occupied. -/
def validStart (s : Sensor) (taken : List (Int × Int)) (p : Int × Int) : Bool :=
  (! s.with_obstacle p.1 p.2) && (! taken.any (fun q => q == p))

/-- Every start position in the list validates against its predecessors. -/
def allValidStarts (s : Sensor) (taken : List (Int × Int)) : List (Int × Int) → Bool
  | [] => true
  | p :: rest => validStart s taken p && allValidStarts s (taken ++ [p]) rest

/-- Length of the longest leading segment of valid start positions. -/
def validRunLen (s : Sensor) (taken : List (Int × Int)) : List (Int × Int) → Nat
  | [] => 0
  | p :: rest => if validStart s taken p then 1 + validRunLen s (taken ++ [p]) rest else 0

/-! ## Concrete configurations used by counterexamples and witnesses -/

/-- A 1×1 room whose single cell carries the only treasure. -/
def sOneCell : Sensor :=
  { rows := 1, cols := 1, n_treasures := 1
    with_obstacle := fun _ _ => false
    with_treasure := fun i j => i == 0 && j == 0 }

/-- The master after spawning one robot at `(0,0)` in `sOneCell`: the start
cell holds the only treasure. -/
def mOneCell : Master := (init_robots sOneCell [(0, 0)]).getMaster

/-- A 2×2 room with a single obstacle at `(1,1)` and no treasure. -/
def sObstacle11 : Sensor :=
  { rows := 2, cols := 2, n_treasures := 0
    with_obstacle := fun i j => i == 1 && j == 1
    with_treasure := fun _ _ => false }

/-- A 5×5 room whose only obstacle sits at `(2,2)` (no treasures). -/
def sObstacle22 : Sensor :=
  { rows := 5, cols := 5, n_treasures := 0
    with_obstacle := fun i j => i == 2 && j == 2
    with_treasure := fun _ _ => false }

/-- A 5×5 room with no obstacles and no treasures. -/
def sOpen5 : Sensor :=
  { rows := 5, cols := 5, n_treasures := 0
    with_obstacle := fun _ _ => false
    with_treasure := fun _ _ => false }

/-- A freshly spawned robot on the 1×1 room (spawn default battery 100). -/
def robInit : Robot := Robot.init 1 (0, 0) 100 sOneCell

/-- An active robot with full battery standing at `(2,2)` of `sObstacle22`
(the cell under it is the room's only obstacle). -/
def robC8 : Robot := Robot.init 1 (2, 2) 100 sObstacle22

/-! ## Helper lemmas about the agent -/

/-- The success condition of `Robot.move` for a target cell, as the claims
state it: active, enough battery, target in bounds and obstacle-free. -/
def moveOkCond (r : Robot) (tgt : Int × Int) : Prop :=
  r.suspended = false ∧ 5 ≤ r.battery ∧ 0 ≤ tgt.1 ∧ tgt.1 < r.sensor.rows ∧
    0 ≤ tgt.2 ∧ tgt.2 < r.sensor.cols ∧ r.sensor.with_obstacle tgt.1 tgt.2 = false

instance (r : Robot) (tgt : Int × Int) : Decidable (moveOkCond r tgt) := by
  unfold moveOkCond; infer_instance

/-! ## Helper lemmas -/

theorem Robot.valid_move_iff (r : Robot) (p : Int × Int) :
    r.valid_move p = true ↔
      (0 ≤ p.1 ∧ p.1 < r.sensor.rows ∧ 0 ≤ p.2 ∧ p.2 < r.sensor.cols ∧
        r.sensor.with_obstacle p.1 p.2 = false) := by
  unfold Robot.valid_move
  split_ifs with h1 h2
  · simp only [Bool.false_eq_true, false_iff]
    rintro ⟨h0, -, h0', -, -⟩
    rcases h1 with h | h <;> omega
  · simp only [Bool.false_eq_true, false_iff]
    rintro ⟨-, hr, -, hc, -⟩
    rcases h2 with h | h <;> omega
  · push_neg at h1 h2
    simp only [Bool.not_eq_true']
    constructor
    · intro hob
      exact ⟨by omega, by omega, by omega, by omega, hob⟩
    · rintro ⟨-, -, -, -, hob⟩
      exact hob

theorem Robot.move_of_cond (r : Robot) (d : String)
    (h : moveOkCond r (r.calculate_new_position d)) :
    r.move d =
      ({ r with position := r.calculate_new_position d, battery := r.battery - 5 }, "OK") := by
  obtain ⟨hs, hb, h1, h2, h3, h4, hob⟩ := h
  have hv : r.valid_move (r.calculate_new_position d) = true :=
    (r.valid_move_iff _).mpr ⟨h1, h2, h3, h4, hob⟩
  unfold Robot.move Robot.battery_decrease
  rw [if_neg (by simp [hs]), if_neg (by omega), if_pos hv, if_pos (by simp [hs])]
  have hmax : max 0 (r.battery - 5) = r.battery - 5 := max_eq_right (by omega)
  simp [hmax]

theorem Robot.move_of_not_cond (r : Robot) (d : String)
    (h : ¬ moveOkCond r (r.calculate_new_position d)) :
    r.move d = (r, "KO") := by
  unfold Robot.move
  by_cases hs : r.suspended = true
  · rw [if_pos hs]
  · rw [if_neg hs]
    by_cases hb : r.battery < 5
    · rw [if_pos hb]
    · rw [if_neg hb]
      have hv : ¬ r.valid_move (r.calculate_new_position d) = true := by
        intro hv
        obtain ⟨h1, h2, h3, h4, hob⟩ := (r.valid_move_iff _).mp hv
        exact h ⟨by simpa using hs, by omega, h1, h2, h3, h4, hob⟩
      rw [if_neg hv]

/-! ## Claim theorems -/

/-- **C1**: for every agent state and direction, `Robot.move` replies `OK`,
moves the position to the adjacent cell in that direction (the computed
target `calculate_new_position`, spelled out per direction in the last four
conjuncts), and drains exactly 5 battery, if and only if the agent is not
suspended, its battery is at least 5, and the target cell is in bounds and
obstacle-free; in every other case the reply is `KO` and the state is
unchanged. -/
theorem C1_move_characterization (r : Robot) (d : String) :
    (((r.move d).2 = "OK" ∧ (r.move d).1.position = r.calculate_new_position d ∧
        (r.move d).1.battery = r.battery - 5) ↔ moveOkCond r (r.calculate_new_position d))
    ∧ (¬ moveOkCond r (r.calculate_new_position d) →
        (r.move d).2 = "KO" ∧ (r.move d).1 = r)
    ∧ (d = "up" → r.calculate_new_position d = (r.position.1 - 1, r.position.2))
    ∧ (d = "down" → r.calculate_new_position d = (r.position.1 + 1, r.position.2))
    ∧ (d = "left" → r.calculate_new_position d = (r.position.1, r.position.2 - 1))
    ∧ (d = "right" → r.calculate_new_position d = (r.position.1, r.position.2 + 1)) := by
  refine ⟨?_, ?_, ?_, ?_, ?_, ?_⟩
  · constructor
    · intro hh
      by_contra h
      rw [Robot.move_of_not_cond r d h] at hh
      have hne : ("KO" : String) ≠ "OK" := by decide
      exact hne hh.1
    · intro h
      rw [Robot.move_of_cond r d h]
      exact ⟨rfl, rfl, rfl⟩
  · intro h
    rw [Robot.move_of_not_cond r d h]
    exact ⟨rfl, rfl⟩
  · intro h; subst h; rfl
  · intro h; subst h; rfl
  · intro h; subst h; rfl
  · intro h; subst h; rfl

/-- Witness for **C1**: concrete evaluation at `robInit` moving `"up"`
(the target `(-1, 0)` is out of bounds, so the reply is `KO`). -/
theorem C1_move_characterization_witness :
    (robInit.move "up").2 = "KO" ∧ (robInit.move "up").1 = robInit :=
  (C1_move_characterization robInit "up").2.1 (by decide)

/-- **C9**: for any direction string outside `{up, down, left, right}`,
`calculate_new_position` falls through to the current cell, so an active
agent with battery ≥ 5 standing on an in-bounds, obstacle-free cell gets
reply `OK`, an unchanged position, and battery reduced by exactly 5. -/
theorem C9_unknown_direction_self_move (r : Robot) (d : String)
    (hd : ¬ (d = "up" ∨ d = "down" ∨ d = "left" ∨ d = "right"))
    (hs : r.suspended = false) (hb : 5 ≤ r.battery)
    (h1 : 0 ≤ r.position.1) (h2 : r.position.1 < r.sensor.rows)
    (h3 : 0 ≤ r.position.2) (h4 : r.position.2 < r.sensor.cols)
    (hob : r.sensor.with_obstacle r.position.1 r.position.2 = false) :
    r.calculate_new_position d = r.position ∧
    (r.move d).2 = "OK" ∧ (r.move d).1.position = r.position ∧
    (r.move d).1.battery = r.battery - 5 := by
  push_neg at hd
  obtain ⟨hu, hdn, hl, hri⟩ := hd
  have htgt : r.calculate_new_position d = r.position := by
    unfold Robot.calculate_new_position
    rw [if_neg hu, if_neg hdn, if_neg hl, if_neg hri]
  have hcond : moveOkCond r (r.calculate_new_position d) := by
    rw [htgt]; exact ⟨hs, hb, h1, h2, h3, h4, hob⟩
  rw [Robot.move_of_cond r d hcond]
  exact ⟨htgt, rfl, htgt, rfl⟩

/-- Witness for **C9**: the direction `"jump"` at `robInit`. -/
theorem C9_unknown_direction_self_move_witness :
    robInit.calculate_new_position "jump" = robInit.position ∧
    (robInit.move "jump").2 = "OK" ∧ (robInit.move "jump").1.position = robInit.position ∧
    (robInit.move "jump").1.battery = robInit.battery - 5 :=
  C9_unknown_direction_self_move robInit "jump" (by decide) rfl (by decide)
    (by decide) (by decide) (by decide) (by decide) rfl

/-- **C8 counterexample**: in `sObstacle22` the neighbour cells `(2,1)` and
`(2,3)` are in bounds and obstacle-free exactly as the claim requires, yet
the round trip fails: the start cell `(2,2)` — which the claim does not
constrain — is an obstacle, so the return move replies `KO` and the robot
ends at `(2,3)` with battery 95 instead of `(2,2)` with battery 90. -/
theorem C8_counterexample :
    (sObstacle22.with_obstacle 2 1 = false ∧ sObstacle22.with_obstacle 2 3 = false ∧
      (2 : Int) < sObstacle22.rows ∧ (3 : Int) < sObstacle22.cols) ∧
    ((robC8.move "right").2 = "OK" ∧
      ((robC8.move "right").1.move "left").2 = "KO" ∧
      ((robC8.move "right").1.move "left").1.position = (2, 3) ∧
      ((robC8.move "right").1.move "left").1.battery = 95) := by decide

/-- **C8 (amended)**: with the extra premise — forced by the counterexample —
that the start cell `(2,2)` is itself obstacle-free, the round trip holds:
`mv right` then `mv left` from `(2,2)` with battery 100 returns the agent to
`(2,2)` with battery exactly 90, both replies `OK`. -/
theorem C8_round_trip (s : Sensor) (rid : Int)
    (hrow : (2 : Int) < s.rows) (hcol : (3 : Int) < s.cols)
    (h21 : s.with_obstacle 2 1 = false) (h23 : s.with_obstacle 2 3 = false)
    (h22 : s.with_obstacle 2 2 = false) :
    ((Robot.init rid (2, 2) 100 s).move "right").2 = "OK" ∧
    (((Robot.init rid (2, 2) 100 s).move "right").1.move "left").2 = "OK" ∧
    (((Robot.init rid (2, 2) 100 s).move "right").1.move "left").1.position = (2, 2) ∧
    (((Robot.init rid (2, 2) 100 s).move "right").1.move "left").1.battery = 90 := by
  have ht1 : (Robot.init rid (2, 2) 100 s).calculate_new_position "right" = (2, 3) := by
    simp [Robot.calculate_new_position, Robot.init]
  have hc1 : moveOkCond (Robot.init rid (2, 2) 100 s)
      ((Robot.init rid (2, 2) 100 s).calculate_new_position "right") := by
    rw [ht1]
    refine ⟨rfl, ?_, ?_, ?_, ?_, ?_, h23⟩
    · show (5 : Int) ≤ 100; norm_num
    · show (0 : Int) ≤ 2; norm_num
    · show (2 : Int) < s.rows; exact hrow
    · show (0 : Int) ≤ 3; norm_num
    · show (3 : Int) < s.cols; exact hcol
  have e1 : (Robot.init rid (2, 2) 100 s).move "right"
      = (Robot.mk rid (2, 3) 95 false s, "OK") := by
    rw [Robot.move_of_cond _ _ hc1, ht1]
    exact rfl
  have ht2 : (Robot.mk rid (2, 3) 95 false s).calculate_new_position "left" = (2, 2) := by
    simp [Robot.calculate_new_position]
  have hc2 : moveOkCond (Robot.mk rid (2, 3) 95 false s)
      ((Robot.mk rid (2, 3) 95 false s).calculate_new_position "left") := by
    rw [ht2]
    refine ⟨rfl, ?_, ?_, ?_, ?_, ?_, h22⟩
    · show (5 : Int) ≤ 95; norm_num
    · show (0 : Int) ≤ 2; norm_num
    · show (2 : Int) < s.rows; exact hrow
    · show (0 : Int) ≤ 2; norm_num
    · show (2 : Int) < s.cols; omega
  have e2 : (Robot.mk rid (2, 3) 95 false s).move "left"
      = (Robot.mk rid (2, 2) 90 false s, "OK") := by
    rw [Robot.move_of_cond _ _ hc2, ht2]
    exact rfl
  exact ⟨by simp [e1], by simp [e1, e2], by simp [e1, e2], by simp [e1, e2]⟩

/-- Witness for **C8 (amended)** on the obstacle-free room `sOpen5`. -/
theorem C8_round_trip_witness :
    ((Robot.init 3 (2, 2) 100 sOpen5).move "right").2 = "OK" ∧
    (((Robot.init 3 (2, 2) 100 sOpen5).move "right").1.move "left").2 = "OK" ∧
    (((Robot.init 3 (2, 2) 100 sOpen5).move "right").1.move "left").1.position = (2, 2) ∧
    (((Robot.init 3 (2, 2) 100 sOpen5).move "right").1.move "left").1.battery = 90 :=
  C8_round_trip sOpen5 3 (by decide) (by decide) rfl rfl rfl

theorem Robot.battery_decrease_battery (r : Robot) (n : Int) :
    (r.battery_decrease n).battery = r.battery ∨
      (r.battery_decrease n).battery = max 0 (r.battery - n) := by
  unfold Robot.battery_decrease
  split_ifs
  · right; rfl
  · left; rfl

theorem Robot.move_battery_cases (r : Robot) (d : String) :
    (r.move d).1.battery = r.battery ∨ (r.move d).1.battery = max 0 (r.battery - 5) := by
  simp only [Robot.move]
  split_ifs
  · left; rfl
  · left; rfl
  · exact ({ r with position := r.calculate_new_position d }).battery_decrease_battery 5
  · left; rfl

theorem robot_step_line_cases (r : Robot) (input : String) :
    robot_step r (.line input) = r ∨
      ∃ d, robot_step r (.line input) = (r.move d).1 := by
  simp only [robot_step]
  split_ifs
  · exact Or.inl rfl
  · exact Or.inr ⟨_, rfl⟩
  all_goals exact Or.inl rfl

theorem Robot.move_battery_bounds (r : Robot) (d : String)
    (h0 : 0 ≤ r.battery) (h1 : r.battery ≤ 100) :
    0 ≤ (r.move d).1.battery ∧ (r.move d).1.battery ≤ 100 := by
  rcases r.move_battery_cases d with h | h <;> rw [h] <;> omega

theorem robot_step_battery_bounds (r : Robot) (e : REvent)
    (h0 : 0 ≤ r.battery) (h1 : r.battery ≤ 100) :
    0 ≤ (robot_step r e).battery ∧ (robot_step r e).battery ≤ 100 := by
  cases e with
  | sig s =>
    cases s with
    | sigint => exact ⟨h0, h1⟩
    | sigquit => exact ⟨h0, h1⟩
    | sigtstp => exact ⟨h0, h1⟩
    | sigusr1 =>
      show (0 : Int) ≤ 100 ∧ (100 : Int) ≤ 100
      exact ⟨by norm_num, by norm_num⟩
    | sigalrm =>
      show 0 ≤ (r.battery_decrease 1).battery ∧ (r.battery_decrease 1).battery ≤ 100
      rcases r.battery_decrease_battery 1 with h | h <;> rw [h] <;> omega
  | line input =>
    rcases robot_step_line_cases r input with h | ⟨d, h⟩
    · rw [h]; exact ⟨h0, h1⟩
    · rw [h]; exact r.move_battery_bounds d h0 h1

theorem runRobot_battery_bounds (events : List REvent) :
    ∀ r : Robot, 0 ≤ r.battery → r.battery ≤ 100 →
      0 ≤ (runRobot r events).battery ∧ (runRobot r events).battery ≤ 100 := by
  induction events with
  | nil => exact fun r h0 h1 => ⟨h0, h1⟩
  | cons e es ih =>
    intro r h0 h1
    have hstep := robot_step_battery_bounds r e h0 h1
    exact ih (robot_step r e) hstep.1 hstep.2

theorem robot_step_battery_increase (r : Robot) (e : REvent)
    (h0 : 0 ≤ r.battery) (hlt : r.battery < (robot_step r e).battery) :
    e = REvent.sig RSig.sigusr1 ∧ (robot_step r e).battery = 100 := by
  cases e with
  | sig s =>
    cases s with
    | sigusr1 => exact ⟨rfl, rfl⟩
    | sigalrm =>
      exfalso
      simp only [robot_step, signal_handler, Robot.battery_decrease] at hlt
      split_ifs at hlt <;> simp_all <;> omega
    | sigint => exact absurd hlt (by simp [robot_step, signal_handler])
    | sigquit => exact absurd hlt (by simp [robot_step, signal_handler])
    | sigtstp => exact absurd hlt (by simp [robot_step, signal_handler])
  | line input =>
    exfalso
    rcases robot_step_line_cases r input with h | ⟨d, h⟩
    · rw [h] at hlt; omega
    · rw [h] at hlt
      rcases Robot.move_battery_cases r d with hb | hb <;> rw [hb] at hlt <;> omega

/-- **C6 counterexample**: the battery equals 100 in the agent's initial
state, a reachable state (the empty event sequence) in which no `Refill`
control message has ever been delivered — `master.py` always spawns robots
with the default battery of 100.  Hence "battery equals 100 only in the
state immediately following a Refill" fails. -/
theorem C6_counterexample :
    (runRobot robInit []).battery = 100 ∧ ([] : List REvent).getLast? = none :=
  ⟨rfl, rfl⟩

/-- **C6 (amended)**: for every run from a spawn state with battery in
`[0,100]` (the orchestrator always spawns with 100), the battery stays in
`[0,100]` at every point; and the battery strictly increases across an
event only when that event is the Refill signal, which sets it to exactly
100 — it can also stand at 100 initially, or persist at 100 through events
that leave it unchanged. -/
theorem C6_battery_invariant (s : Sensor) (rid : Int) (pos : Int × Int) (b0 : Int)
    (hb0 : 0 ≤ b0) (hb1 : b0 ≤ 100) (events : List REvent) :
    (0 ≤ (runRobot (Robot.init rid pos b0 s) events).battery ∧
      (runRobot (Robot.init rid pos b0 s) events).battery ≤ 100) ∧
    (∀ (r : Robot) (e : REvent), 0 ≤ r.battery →
      r.battery < (robot_step r e).battery →
      e = REvent.sig RSig.sigusr1 ∧ (robot_step r e).battery = 100) :=
  ⟨runRobot_battery_bounds events (Robot.init rid pos b0 s) hb0 hb1,
   fun r e h0 hlt => robot_step_battery_increase r e h0 hlt⟩

theorem send_command_state_of_no_treasure (m : Master) (rid : Int) (c : String)
    (o : ChannelOutcome) (sr : SendResult)
    (h : send_command m rid c o = .ok sr)
    (hno : strIn "Treasure" sr.resp = false) : sr.m = m := by
  unfold send_command at h
  cases hl : lookupRobot m rid with
  | none => rw [hl] at h; exact absurd h (by simp)
  | some pos =>
    rw [hl] at h
    cases o with
    | dead => injection h with h; rw [← h]
    | ioFault => injection h with h; rw [← h]
    | timeout => injection h with h; rw [← h]
    | reply line =>
      by_cases ht : strIn "Treasure" line = true
      · exfalso
        simp only [ht, if_true] at h
        split_ifs at h <;> (injection h with h; rw [← h] at hno; simp [ht] at hno)
      · simp only [Bool.not_eq_true] at ht
        simp only [ht, Bool.false_eq_true, if_false] at h
        injection h with h; rw [← h]

/-- **C5 counterexample**: a `send_command` call that times out returns the
`Error` response but issues no process-termination request at all
(`killed = false`); the claim requires a best-effort termination request on
timeout (and an `alive := false` flip on a flag `master.py` does not even
keep). -/
theorem C5_counterexample :
    send_command mOneCell 1 "bat" ChannelOutcome.timeout
      = Except.ok ⟨mOneCell, "Error", false⟩ := rfl

/-- **C5 (amended)**: a timed-out or faulted `sendCommand` returns the
`Error` response and leaves the master state unchanged; a best-effort
`SIGTERM` is issued only on an I/O fault, not on a timeout (and not on the
dead-process probe); `master.py` keeps no per-agent alive flag, so no flag
is flipped. -/
theorem C5_failure_handling (m : Master) (rid : Int) (pos : Int × Int) (command : String)
    (h : lookupRobot m rid = some pos) :
    send_command m rid command ChannelOutcome.timeout = .ok ⟨m, "Error", false⟩ ∧
    send_command m rid command ChannelOutcome.ioFault = .ok ⟨m, "Error", true⟩ ∧
    send_command m rid command ChannelOutcome.dead = .ok ⟨m, "Error", false⟩ := by
  unfold send_command
  rw [h]
  exact ⟨rfl, rfl, rfl⟩

/-- Witness for **C5 (amended)** at the concrete master `mOneCell`. -/
theorem C5_failure_handling_witness :
    send_command mOneCell 1 "bat" ChannelOutcome.timeout = .ok ⟨mOneCell, "Error", false⟩ ∧
    send_command mOneCell 1 "bat" ChannelOutcome.ioFault = .ok ⟨mOneCell, "Error", true⟩ ∧
    send_command mOneCell 1 "bat" ChannelOutcome.dead = .ok ⟨mOneCell, "Error", false⟩ :=
  C5_failure_handling mOneCell 1 (0, 0) "bat" rfl

theorem move_robot_failure (m : Master) (rid : Int) (direction : String)
    (o : ChannelOutcome) (sr : SendResult)
    (hsend : send_command m rid ("mv " ++ direction) o = .ok sr)
    (hresp : sr.resp = "KO" ∨ sr.resp = "Error") :
    move_robot m rid direction o = .ok (m, false) := by
  have hno : strIn "Treasure" sr.resp = false := by
    rcases hresp with h | h <;> rw [h] <;> decide
  have hm : sr.m = m := send_command_state_of_no_treasure m rid _ o sr hsend hno
  have hok : strIn "OK" sr.resp = false := by
    rcases hresp with h | h <;> rw [h] <;> decide
  unfold move_robot
  split
  · next heq =>
    exfalso
    unfold send_command at hsend
    rw [heq] at hsend
    exact absurd hsend (by simp)
  · next oldPos heq =>
    show (if (m.robots.any fun p => p.1 != rid && p.2 == new_position_of oldPos direction) = true
          then Except.ok (m, false)
          else
            match send_command m rid ("mv " ++ direction) o with
            | Except.error e => Except.error e
            | Except.ok sr =>
              if sr.m.terminated = true then Except.ok (sr.m, false)
              else if strIn "OK" sr.resp = true then
                Except.ok (move_robot_apply_ok sr.m rid oldPos (new_position_of oldPos direction))
              else Except.ok (sr.m, false))
        = Except.ok (m, false)
    split_ifs with hcol
    · rfl
    · rw [hsend]
      show (if sr.m.terminated = true then Except.ok (sr.m, false)
            else if strIn "OK" sr.resp = true then
              Except.ok (move_robot_apply_ok sr.m rid oldPos (new_position_of oldPos direction))
            else Except.ok (sr.m, false))
          = Except.ok (m, false)
      rw [hm, hok]
      split_ifs with h1 h2
      · rfl
      · exact absurd h2 (by simp)
      · rfl

/-- **C7**: a `move_robot` call whose inner `send_command` yields a negative
(`"KO"`) or `Error` response returns `false` and the *identical* master
state: every room grid cell and every recorded robot position is unchanged. -/
theorem C7_no_mutation_on_failure (m : Master) (rid : Int) (direction : String)
    (o : ChannelOutcome) (sr : SendResult)
    (hsend : send_command m rid ("mv " ++ direction) o = .ok sr)
    (hresp : sr.resp = "KO" ∨ sr.resp = "Error") :
    move_robot m rid direction o = .ok (m, false) :=
  move_robot_failure m rid direction o sr hsend hresp

/-- Witness for **C7**: robot 1 of `mOneCell` replies `"KO"` to a move. -/
theorem C7_no_mutation_on_failure_witness :
    move_robot mOneCell 1 "up" (ChannelOutcome.reply "KO") = .ok (mOneCell, false) :=
  C7_no_mutation_on_failure mOneCell 1 "up" (ChannelOutcome.reply "KO")
    ⟨mOneCell, "KO", false⟩ rfl (Or.inl rfl)

/-- **C10**: any of the five robot-addressed operator commands (`bat`,
`pos`, `mv`, `suspend`, `resume`) whose id argument parses as an integer
that matches no registered robot makes `handle_command` raise an uncaught
`KeyError` (`.error ()`) — the surrounding handlers only catch
`ValueError` — and the main loop, which only catches `EOFError`, crashes
the orchestrator instead of printing a diagnostic and continuing. -/
theorem C10_unknown_id_crashes (m : Master) (command ridStr : String) (n : Int)
    (ch : Int → ChannelOutcome)
    (hparts : pySplit command = ["bat", ridStr] ∨ pySplit command = ["pos", ridStr] ∨
      pySplit command = ["suspend", ridStr] ∨ pySplit command = ["resume", ridStr] ∨
      ∃ direction, pySplit command = ["mv", ridStr, direction])
    (hn : pyInt ridStr = some n)
    (hm : lookupRobot m n = none) :
    handle_command m command ch = .error () ∧
    main_step m (some command) ch = LoopResult.crashed := by
  have hall : ridStr ≠ "all" := by
    intro he
    rw [he] at hn
    rw [show pyInt "all" = none from by decide] at hn
    exact Option.noConfusion hn
  have h1 : handle_command m command ch = .error () := by
    rcases hparts with hp | hp | hp | hp | ⟨d, hp⟩
    · unfold handle_command
      rw [hp]
      show (if ridStr = "all" then sendToAll m "bat" ch
            else
              match pyInt ridStr with
              | none => Except.ok m
              | some rid => (send_command m rid "bat" (ch rid)).map SendResult.m)
          = .error ()
      rw [if_neg hall, hn]
      show (send_command m n "bat" (ch n)).map SendResult.m = .error ()
      unfold send_command
      rw [hm]
      rfl
    · unfold handle_command
      rw [hp]
      show (if ridStr = "all" then sendToAll m "pos" ch
            else
              match pyInt ridStr with
              | none => Except.ok m
              | some rid => (send_command m rid "pos" (ch rid)).map SendResult.m)
          = .error ()
      rw [if_neg hall, hn]
      show (send_command m n "pos" (ch n)).map SendResult.m = .error ()
      unfold send_command
      rw [hm]
      rfl
    · unfold handle_command
      rw [hp]
      show (if ridStr = "all" then Except.ok m
            else
              match pyInt ridStr with
              | none => Except.ok m
              | some rid =>
                match lookupRobot m rid with
                | none => Except.error ()
                | some _ => Except.ok m)
          = .error ()
      rw [if_neg hall, hn]
      show (match lookupRobot m n with
            | none => Except.error ()
            | some _ => Except.ok m) = Except.error ()
      rw [hm]
    · unfold handle_command
      rw [hp]
      show (if ridStr = "all" then Except.ok m
            else
              match pyInt ridStr with
              | none => Except.ok m
              | some rid =>
                match lookupRobot m rid with
                | none => Except.error ()
                | some _ => Except.ok m)
          = .error ()
      rw [if_neg hall, hn]
      show (match lookupRobot m n with
            | none => Except.error ()
            | some _ => Except.ok m) = Except.error ()
      rw [hm]
    · unfold handle_command
      rw [hp]
      show (if ridStr = "all" then moveAll m d ch
            else
              match pyInt ridStr with
              | none => Except.ok m
              | some rid => (move_robot m rid d (ch rid)).map Prod.fst)
          = .error ()
      rw [if_neg hall, hn]
      show (move_robot m n d (ch n)).map Prod.fst = .error ()
      unfold move_robot
      rw [hm]
      rfl
  refine ⟨h1, ?_⟩
  unfold main_step
  show (match handle_command m command ch with
        | .ok m1 => if m1.terminated = true then LoopResult.exited else LoopResult.next m1
        | .error _ => LoopResult.crashed) = LoopResult.crashed
  rw [h1]

/-- Witness for **C10**: `bat 7` against `mOneCell` (whose only robot has
id 1) crashes the orchestrator. -/
theorem C10_unknown_id_crashes_witness :
    handle_command mOneCell "bat 7" (fun _ => ChannelOutcome.timeout) = .error () ∧
    main_step mOneCell (some "bat 7") (fun _ => ChannelOutcome.timeout)
      = LoopResult.crashed :=
  C10_unknown_id_crashes mOneCell "bat 7" "7" 7 (fun _ => ChannelOutcome.timeout)
    (Or.inl (by decide)) (by decide) (by decide)

theorem init_robots_from_invalid (s : Sensor) :
    ∀ (ps : List (Int × Int)) (m : Master) (i : Int),
      allValidStarts s (m.robots.map Prod.snd) ps = false →
      (init_robots_from s m i ps).exitCode? = some 1 ∧
      (init_robots_from s m i ps).getMaster.robots.length
        = m.robots.length + validRunLen s (m.robots.map Prod.snd) ps := by
  intro ps
  induction ps with
  | nil =>
    intro m i h
    exact absurd h (by simp [allValidStarts])
  | cons p rest ih =>
    intro m i h
    obtain ⟨row, col⟩ := p
    have hocc_all : ∀ l : List (Int × (Int × Int)),
        ((l.map Prod.snd).any fun q => q == (row, col))
          = (l.any fun p => p.2 == (row, col)) := by
      intro l
      induction l with
      | nil => rfl
      | cons a t iht => simp [iht]
    have hocc_eq := hocc_all m.robots
    by_cases hob : s.with_obstacle row col = true
    · have hvs : validStart s (m.robots.map Prod.snd) (row, col) = false := by
        simp [validStart, hob]
      refine ⟨?_, ?_⟩
      · unfold init_robots_from
        rw [if_pos hob]
        rfl
      · unfold init_robots_from validRunLen
        rw [if_pos hob, hvs]
        simp [InitResult.getMaster]
    · by_cases hocc : (m.robots.any fun p => p.2 == (row, col)) = true
      · have hvs : validStart s (m.robots.map Prod.snd) (row, col) = false := by
          simp [validStart, hocc_eq, hocc]
        refine ⟨?_, ?_⟩
        · unfold init_robots_from
          rw [if_neg hob, if_pos hocc]
          rfl
        · unfold init_robots_from validRunLen
          rw [if_neg hob, if_pos hocc, hvs]
          simp [InitResult.getMaster]
      · have hvs : validStart s (m.robots.map Prod.snd) (row, col) = true := by
          simp [validStart, hocc_eq, hocc, hob]
        have hstep : init_robots_from s m i ((row, col) :: rest)
            = init_robots_from s
                (if m.treasure_positions row col then
                  { m with
                    robots := m.robots ++ [(i, (row, col))]
                    room_info := setCell m.room_info (row, col) "RT"
                    discovered_treasures := insert (row, col) m.discovered_treasures
                    treasures_found := m.treasures_found + 1 }
                else
                  { m with
                    robots := m.robots ++ [(i, (row, col))]
                    room_info := setCell m.room_info (row, col) "R" })
                (i + 1) rest := by
          conv_lhs => rw [init_robots_from]
          rw [if_neg hob, if_neg hocc]
        set m1 : Master :=
          (if m.treasure_positions row col then
            { m with
              robots := m.robots ++ [(i, (row, col))]
              room_info := setCell m.room_info (row, col) "RT"
              discovered_treasures := insert (row, col) m.discovered_treasures
              treasures_found := m.treasures_found + 1 }
          else
            { m with
              robots := m.robots ++ [(i, (row, col))]
              room_info := setCell m.room_info (row, col) "R" }) with hm1
        have hrob : m1.robots = m.robots ++ [(i, (row, col))] := by
          rw [hm1]; split_ifs <;> rfl
        have htaken : m1.robots.map Prod.snd = m.robots.map Prod.snd ++ [(row, col)] := by
          rw [hrob, List.map_append]
          rfl
        have hrest : allValidStarts s (m1.robots.map Prod.snd) rest = false := by
          rw [htaken]
          have := h
          unfold allValidStarts at this
          rw [hvs] at this
          simpa using this
        have hih := ih m1 (i + 1) hrest
        have hlen : m1.robots.length = m.robots.length + 1 := by
          rw [hrob, List.length_append]
          rfl
        have hvrl : validRunLen s (m.robots.map Prod.snd) ((row, col) :: rest)
            = 1 + validRunLen s (m.robots.map Prod.snd ++ [(row, col)]) rest := by
          conv_lhs => rw [validRunLen]
          rw [hvs]
          simp
        refine ⟨by rw [hstep]; exact hih.1, ?_⟩
        rw [hstep, hih.2, htaken, hlen, hvrl]
        omega

theorem send_command_ledger (m : Master) (rid : Int) (c : String) (o : ChannelOutcome)
    (sr : SendResult) (h : send_command m rid c o = .ok sr) :
    sr.m.n_treasures = m.n_treasures ∧
    sr.m.discovered_treasures = m.discovered_treasures ∧
    sr.m.robots = m.robots ∧
    (sr.m.treasures_found = m.treasures_found ∨
      sr.m.treasures_found = m.treasures_found + 1) := by
  unfold send_command at h
  cases hl : lookupRobot m rid with
  | none => rw [hl] at h; exact absurd h (by simp)
  | some pos =>
    rw [hl] at h
    cases o with
    | dead => injection h with h; rw [← h]; exact ⟨rfl, rfl, rfl, Or.inl rfl⟩
    | ioFault => injection h with h; rw [← h]; exact ⟨rfl, rfl, rfl, Or.inl rfl⟩
    | timeout => injection h with h; rw [← h]; exact ⟨rfl, rfl, rfl, Or.inl rfl⟩
    | reply line =>
      by_cases ht : strIn "Treasure" line = true
      · simp only [ht, if_true] at h
        split_ifs at h <;> (injection h with h; rw [← h]; exact ⟨rfl, rfl, rfl, Or.inr rfl⟩)
      · simp only [Bool.not_eq_true] at ht
        simp only [ht, Bool.false_eq_true, if_false] at h
        injection h with h; rw [← h]; exact ⟨rfl, rfl, rfl, Or.inl rfl⟩

theorem send_command_terminated_iff (m : Master) (rid : Int) (c : String) (o : ChannelOutcome)
    (sr : SendResult) (h : send_command m rid c o = .ok sr) (hterm : m.terminated = false) :
    sr.m.terminated = true ↔
      (sr.m.treasures_found = m.treasures_found + 1 ∧
        sr.m.treasures_found = m.n_treasures) := by
  unfold send_command at h
  cases hl : lookupRobot m rid with
  | none => rw [hl] at h; exact absurd h (by simp)
  | some pos =>
    rw [hl] at h
    cases o with
    | dead =>
      injection h with h
      have hsm : sr.m = m := by rw [← h]
      rw [hsm, hterm]
      constructor
      · intro hx; exact Bool.noConfusion hx
      · rintro ⟨hx, -⟩; omega
    | ioFault =>
      injection h with h
      have hsm : sr.m = m := by rw [← h]
      rw [hsm, hterm]
      constructor
      · intro hx; exact Bool.noConfusion hx
      · rintro ⟨hx, -⟩; omega
    | timeout =>
      injection h with h
      have hsm : sr.m = m := by rw [← h]
      rw [hsm, hterm]
      constructor
      · intro hx; exact Bool.noConfusion hx
      · rintro ⟨hx, -⟩; omega
    | reply line =>
      by_cases ht : strIn "Treasure" line = true
      · simp only [ht, if_true] at h
        split_ifs at h with hc
        · injection h with h
          rw [← h]
          constructor
          · intro _
            exact ⟨rfl, hc⟩
          · intro _
            rfl
        · injection h with h
          rw [← h]
          constructor
          · intro hx
            have hx' : m.terminated = true := hx
            rw [hterm] at hx'
            exact Bool.noConfusion hx'
          · rintro ⟨-, hn⟩
            exact absurd hn hc
      · simp only [Bool.not_eq_true] at ht
        simp only [ht, Bool.false_eq_true, if_false] at h
        injection h with h
        have hsm : sr.m = m := by rw [← h]
        rw [hsm, hterm]
        constructor
        · intro hx; exact Bool.noConfusion hx
        · rintro ⟨hx, -⟩; omega

theorem apply_ok_cases (m1 : Master) (rid : Int) (oldPos newPos : Int × Int) :
    ((move_robot_apply_ok m1 rid oldPos newPos).1.treasures_found = m1.treasures_found ∧
      (move_robot_apply_ok m1 rid oldPos newPos).1.discovered_treasures
        = m1.discovered_treasures ∧
      (move_robot_apply_ok m1 rid oldPos newPos).1.terminated = m1.terminated ∧
      (move_robot_apply_ok m1 rid oldPos newPos).1.n_treasures = m1.n_treasures)
    ∨
    ((move_robot_apply_ok m1 rid oldPos newPos).1.treasures_found = m1.treasures_found + 1 ∧
      (move_robot_apply_ok m1 rid oldPos newPos).1.discovered_treasures
        = insert newPos m1.discovered_treasures ∧
      (move_robot_apply_ok m1 rid oldPos newPos).1.n_treasures = m1.n_treasures ∧
      (move_robot_apply_ok m1 rid oldPos newPos).1.terminated
        = (if m1.treasures_found + 1 = m1.n_treasures then true else m1.terminated)) := by
  unfold move_robot_apply_ok
  split_ifs <;> dsimp only [] <;>
    first
    | (left; refine ⟨?_, ?_, ?_, ?_⟩ <;> rfl)
    | (right
       rename_i hfire
       refine ⟨?_, ?_, ?_, ?_⟩ <;>
         first
         | rfl
         | (rw [if_pos (show m1.treasures_found + 1 = m1.n_treasures from hfire)]; rfl)
         | (rw [if_neg (show ¬ m1.treasures_found + 1 = m1.n_treasures from hfire)]; rfl)
         | (rw [if_pos (show m1.treasures_found + 1 = m1.n_treasures from hfire)])
         | (rw [if_neg (show ¬ m1.treasures_found + 1 = m1.n_treasures from hfire)]))

theorem stepM_of_terminated (m : Master) (op : MOp) (h : m.terminated = true) :
    stepM m op = m := by
  unfold stepM
  rw [if_pos h]

theorem stepSend_ledger (m : Master) (rid : Int) (c : String) (o : ChannelOutcome) :
    m.treasures_found ≤ (stepSend m rid c o).treasures_found ∧
    (stepSend m rid c o).n_treasures = m.n_treasures ∧
    (stepSend m rid c o).discovered_treasures = m.discovered_treasures := by
  unfold stepSend
  cases hs : send_command m rid c o with
  | error e => exact ⟨le_refl _, rfl, rfl⟩
  | ok sr =>
    dsimp only []
    obtain ⟨hn, hd, -, hcnt⟩ := send_command_ledger m rid c o sr hs
    exact ⟨by rcases hcnt with h | h <;> omega, hn, hd⟩

theorem move_robot_ok_ledger (m : Master) (rid : Int) (d : String) (o : ChannelOutcome)
    (r : Master × Bool) (h : move_robot m rid d o = .ok r) :
    m.treasures_found ≤ r.1.treasures_found ∧
    r.1.n_treasures = m.n_treasures ∧
    (m.discovered_treasures.card ≤ m.treasures_found →
      r.1.discovered_treasures.card ≤ r.1.treasures_found) := by
  unfold move_robot at h
  split at h
  · exact absurd h (by simp)
  · next oldPos heq =>
    dsimp only [] at h
    split_ifs at h with hcol
    · injection h with h
      rw [← h]
      exact ⟨le_refl _, rfl, fun hh => hh⟩
    · cases hs : send_command m rid ("mv " ++ d) o with
      | error e => rw [hs] at h; exact absurd h (by simp)
      | ok sr =>
        rw [hs] at h
        dsimp only [] at h
        obtain ⟨hn, hd, -, hcnt⟩ := send_command_ledger m rid ("mv " ++ d) o sr hs
        split_ifs at h with ht hok
        · injection h with h
          rw [← h]
          dsimp only []
          refine ⟨?_, hn, ?_⟩
          · rcases hcnt with hc | hc <;> omega
          · intro hh
            rw [hd]
            rcases hcnt with hc | hc <;> rw [hc] <;> omega
        · injection h with h
          rw [← h]
          rcases apply_ok_cases sr.m rid oldPos (new_position_of oldPos d) with
            ⟨hc2, hd2, -, hn2⟩ | ⟨hc2, hd2, hn2, -⟩
          · refine ⟨?_, ?_, ?_⟩
            · rw [hc2]; rcases hcnt with hc | hc <;> omega
            · rw [hn2, hn]
            · intro hh
              rw [hc2, hd2, hd]
              rcases hcnt with hc | hc <;> rw [hc] <;> omega
          · refine ⟨?_, ?_, ?_⟩
            · rw [hc2]; rcases hcnt with hc | hc <;> omega
            · rw [hn2, hn]
            · intro hh
              rw [hc2, hd2, hd]
              have hcard := Finset.card_insert_le (new_position_of oldPos d)
                m.discovered_treasures
              rcases hcnt with hc | hc <;> rw [hc] <;> omega
        · injection h with h
          rw [← h]
          dsimp only []
          refine ⟨?_, hn, ?_⟩
          · rcases hcnt with hc | hc <;> omega
          · intro hh
            rw [hd]
            rcases hcnt with hc | hc <;> rw [hc] <;> omega

theorem stepMove_ledger (m : Master) (rid : Int) (d : String) (o : ChannelOutcome) :
    m.treasures_found ≤ (stepMove m rid d o).treasures_found ∧
    (stepMove m rid d o).n_treasures = m.n_treasures ∧
    (m.discovered_treasures.card ≤ m.treasures_found →
      (stepMove m rid d o).discovered_treasures.card
        ≤ (stepMove m rid d o).treasures_found) := by
  unfold stepMove
  cases hmv : move_robot m rid d o with
  | error e => exact ⟨le_refl _, rfl, fun hh => hh⟩
  | ok r => exact move_robot_ok_ledger m rid d o r hmv

theorem stepM_ledger (m : Master) (op : MOp) :
    m.treasures_found ≤ (stepM m op).treasures_found ∧
    (stepM m op).n_treasures = m.n_treasures ∧
    (m.discovered_treasures.card ≤ m.treasures_found →
      (stepM m op).discovered_treasures.card ≤ (stepM m op).treasures_found) := by
  unfold stepM
  split_ifs with hterm
  · exact ⟨le_refl _, rfl, fun hh => hh⟩
  · cases op with
    | sendCmd rid c o =>
      dsimp only []
      obtain ⟨h1, h2, h3⟩ := stepSend_ledger m rid c o
      exact ⟨h1, h2, fun hh => by rw [h3]; omega⟩
    | moveRobot rid d o =>
      dsimp only []
      exact stepMove_ledger m rid d o

theorem stepSend_terminated_iff (m : Master) (rid : Int) (c : String) (o : ChannelOutcome)
    (hterm : m.terminated = false) :
    ((stepSend m rid c o).terminated = true ↔
      ((stepSend m rid c o).treasures_found = m.treasures_found + 1 ∧
        (stepSend m rid c o).treasures_found = m.n_treasures)) := by
  unfold stepSend
  cases hs : send_command m rid c o with
  | error e =>
    show m.terminated = true ↔
      (m.treasures_found = m.treasures_found + 1 ∧ m.treasures_found = m.n_treasures)
    rw [hterm]
    constructor
    · intro hx; exact Bool.noConfusion hx
    · rintro ⟨hx, -⟩; omega
  | ok sr => exact send_command_terminated_iff m rid c o sr hs hterm

theorem move_robot_ok_reply (m : Master) (rid : Int) (d : String) (oldPos : Int × Int)
    (hl : lookupRobot m rid = some oldPos) (hterm : m.terminated = false)
    (hcol : ¬ (m.robots.any fun p => p.1 != rid && p.2 == new_position_of oldPos d) = true) :
    move_robot m rid d (.reply "OK")
      = .ok (move_robot_apply_ok m rid oldPos (new_position_of oldPos d)) := by
  have hs : send_command m rid ("mv " ++ d) (.reply "OK") = .ok ⟨m, "OK", false⟩ := by
    unfold send_command
    rw [hl]
    rfl
  unfold move_robot
  split
  · next heq => rw [heq] at hl; exact Option.noConfusion hl
  · next oldPos' heq =>
    rw [heq] at hl
    injection hl with hh
    rw [hh]
    show (if (m.robots.any fun p => p.1 != rid && p.2 == new_position_of oldPos d) = true
          then Except.ok (m, false)
          else
            match send_command m rid ("mv " ++ d) (ChannelOutcome.reply "OK") with
            | Except.error e => Except.error e
            | Except.ok sr =>
              if sr.m.terminated = true then Except.ok (sr.m, false)
              else if strIn "OK" sr.resp = true then
                Except.ok (move_robot_apply_ok sr.m rid oldPos (new_position_of oldPos d))
              else Except.ok (sr.m, false))
        = Except.ok (move_robot_apply_ok m rid oldPos (new_position_of oldPos d))
    rw [if_neg hcol, hs]
    show (if m.terminated = true then Except.ok (m, false)
          else if strIn "OK" "OK" = true then
            Except.ok (move_robot_apply_ok m rid oldPos (new_position_of oldPos d))
          else Except.ok (m, false))
        = Except.ok (move_robot_apply_ok m rid oldPos (new_position_of oldPos d))
    rw [hterm]
    rfl

theorem move_robot_collision (m : Master) (rid : Int) (d : String) (o : ChannelOutcome)
    (oldPos : Int × Int) (hl : lookupRobot m rid = some oldPos)
    (hcol : (m.robots.any fun p => p.1 != rid && p.2 == new_position_of oldPos d) = true) :
    move_robot m rid d o = .ok (m, false) := by
  unfold move_robot
  split
  · next heq => rw [heq] at hl; exact Option.noConfusion hl
  · next oldPos' heq =>
    rw [heq] at hl
    injection hl with hh
    rw [hh]
    show (if (m.robots.any fun p => p.1 != rid && p.2 == new_position_of oldPos d) = true
          then Except.ok (m, false)
          else
            match send_command m rid ("mv " ++ d) o with
            | Except.error e => Except.error e
            | Except.ok sr =>
              if sr.m.terminated = true then Except.ok (sr.m, false)
              else if strIn "OK" sr.resp = true then
                Except.ok (move_robot_apply_ok sr.m rid oldPos (new_position_of oldPos d))
              else Except.ok (sr.m, false))
        = Except.ok (m, false)
    rw [if_pos hcol]

theorem stepMove_terminated_iff (m : Master) (rid : Int) (d : String) (o : ChannelOutcome)
    (hterm : m.terminated = false)
    (hsync : o = .dead ∨ o = .ioFault ∨ o = .timeout ∨
      o = .reply "OK" ∨ o = .reply "KO") :
    ((stepMove m rid d o).terminated = true ↔
      ((stepMove m rid d o).treasures_found = m.treasures_found + 1 ∧
        (stepMove m rid d o).treasures_found = m.n_treasures)) := by
  have hno : ∀ x : Master, x = m →
      (x.terminated = true ↔
        (x.treasures_found = m.treasures_found + 1 ∧ x.treasures_found = m.n_treasures)) := by
    rintro x rfl
    rw [hterm]
    constructor
    · intro hx; exact Bool.noConfusion hx
    · rintro ⟨hx, -⟩; omega
  cases hl : lookupRobot m rid with
  | none =>
    have hmv : move_robot m rid d o = .error () := by
      unfold move_robot
      rw [hl]
    have hsm : stepMove m rid d o = m := by unfold stepMove; rw [hmv]
    rw [hsm]
    exact hno m rfl
  | some oldPos =>
    rcases hsync with rfl | rfl | rfl | rfl | rfl
    · have hs : send_command m rid ("mv " ++ d) .dead = .ok ⟨m, "Error", false⟩ := by
        unfold send_command; rw [hl]
      have hmv := move_robot_failure m rid d .dead ⟨m, "Error", false⟩ hs (Or.inr rfl)
      have hsm : stepMove m rid d .dead = m := by unfold stepMove; rw [hmv]
      rw [hsm]
      exact hno m rfl
    · have hs : send_command m rid ("mv " ++ d) .ioFault = .ok ⟨m, "Error", true⟩ := by
        unfold send_command; rw [hl]
      have hmv := move_robot_failure m rid d .ioFault ⟨m, "Error", true⟩ hs (Or.inr rfl)
      have hsm : stepMove m rid d .ioFault = m := by unfold stepMove; rw [hmv]
      rw [hsm]
      exact hno m rfl
    · have hs : send_command m rid ("mv " ++ d) .timeout = .ok ⟨m, "Error", false⟩ := by
        unfold send_command; rw [hl]
      have hmv := move_robot_failure m rid d .timeout ⟨m, "Error", false⟩ hs (Or.inr rfl)
      have hsm : stepMove m rid d .timeout = m := by unfold stepMove; rw [hmv]
      rw [hsm]
      exact hno m rfl
    · by_cases hcol :
        (m.robots.any fun p => p.1 != rid && p.2 == new_position_of oldPos d) = true
      · have hmv := move_robot_collision m rid d (.reply "OK") oldPos hl hcol
        have hsm : stepMove m rid d (.reply "OK") = m := by unfold stepMove; rw [hmv]
        rw [hsm]
        exact hno m rfl
      · have hmv := move_robot_ok_reply m rid d oldPos hl hterm hcol
        have hsm : stepMove m rid d (.reply "OK")
            = (move_robot_apply_ok m rid oldPos (new_position_of oldPos d)).1 := by
          unfold stepMove; rw [hmv]
        rw [hsm]
        rcases apply_ok_cases m rid oldPos (new_position_of oldPos d) with
          ⟨hc, -, ht, -⟩ | ⟨hc, -, -, ht⟩
        · rw [ht, hterm, hc]
          constructor
          · intro hx; exact Bool.noConfusion hx
          · rintro ⟨hx, -⟩; omega
        · rw [ht, hc]
          by_cases hfire : m.treasures_found + 1 = m.n_treasures
          · rw [if_pos hfire]
            constructor
            · intro _; exact ⟨rfl, hfire⟩
            · intro _; rfl
          · rw [if_neg hfire, hterm]
            constructor
            · intro hx; exact Bool.noConfusion hx
            · rintro ⟨-, hx⟩; exact absurd hx hfire
    · have hs : send_command m rid ("mv " ++ d) (.reply "KO") = .ok ⟨m, "KO", false⟩ := by
        unfold send_command; rw [hl]; rfl
      have hmv := move_robot_failure m rid d (.reply "KO") ⟨m, "KO", false⟩ hs (Or.inl rfl)
      have hsm : stepMove m rid d (.reply "KO") = m := by unfold stepMove; rw [hmv]
      rw [hsm]
      exact hno m rfl

theorem stepM_terminated_iff (m : Master) (op : MOp) (hterm : m.terminated = false)
    (hsync : opSync op) :
    ((stepM m op).terminated = true ↔
      ((stepM m op).treasures_found = m.treasures_found + 1 ∧
        (stepM m op).treasures_found = m.n_treasures)) := by
  unfold stepM
  rw [if_neg (by rw [hterm]; exact Bool.false_ne_true)]
  cases op with
  | sendCmd rid c o => exact stepSend_terminated_iff m rid c o hterm
  | moveRobot rid d o => exact stepMove_terminated_iff m rid d o hterm hsync

theorem init_robots_from_ok (s : Sensor) :
    ∀ (ps : List (Int × Int)) (m : Master) (i : Int) (m' : Master),
      init_robots_from s m i ps = .ok m' →
      m'.terminated = m.terminated ∧
      (m.discovered_treasures.card ≤ m.treasures_found →
        m'.discovered_treasures.card ≤ m'.treasures_found) := by
  intro ps
  induction ps with
  | nil =>
    intro m i m' h
    injection h with h
    rw [← h]
    exact ⟨rfl, fun hh => hh⟩
  | cons p rest ih =>
    intro m i m' h
    obtain ⟨row, col⟩ := p
    rw [init_robots_from] at h
    dsimp only [] at h
    split_ifs at h with h1 h2 h3 <;>
      first
      | exact InitResult.noConfusion h
      | (have hr := ih _ (i + 1) m' h
         refine ⟨hr.1, fun hh => hr.2 ?_⟩
         first
         | exact hh
         | (show (insert (row, col) m.discovered_treasures).card ≤ m.treasures_found + 1
            have hcard := Finset.card_insert_le (row, col) m.discovered_treasures
            omega))

theorem runM_ledger (ops : List MOp) :
    ∀ m : Master, m.discovered_treasures.card ≤ m.treasures_found →
      (runM m ops).discovered_treasures.card ≤ (runM m ops).treasures_found := by
  induction ops with
  | nil => exact fun m h => h
  | cons op rest ih =>
    intro m h
    exact ih (stepM m op) ((stepM_ledger m op).2.2 h)

/-- **C2 counterexample**: in the 1×1 room whose single treasure lies under
the robot's start position, `initialize_robots` increments the ledger to
the total (`treasures_found = n_treasures = 1`) at spawn time but never
invokes the termination sequence: `terminated = false` after
initialization, so termination is *not* invoked at the moment the count
becomes equal to the total. -/
theorem C2_counterexample :
    init_robots sOneCell [(0, 0)] = InitResult.ok mOneCell ∧
    mOneCell.treasures_found = mOneCell.n_treasures ∧
    mOneCell.terminated = false :=
  ⟨rfl, by decide, by decide⟩

/-- **C2 (amended)**: the termination sequence is absorbing (fires at most
once — afterwards the process is gone and operations no longer run), and
during `sendCommand` / `moveRobot` operations (with protocol-conformant
`mv` replies) it is invoked exactly when the found-treasure count
increments to equal the total; treasures found under start positions at
spawn time increment the count but never trigger termination, even when
the count reaches the total. -/
theorem C2_termination_exactly (s : Sensor) (positions : List (Int × Int)) (m0 : Master)
    (ops : List MOp) (op : MOp)
    (hinit : init_robots s positions = .ok m0) (hsync : opSync op) :
    m0.terminated = false ∧
    ((runM m0 ops).terminated = true → stepM (runM m0 ops) op = runM m0 ops) ∧
    ((runM m0 ops).terminated = false →
      ((stepM (runM m0 ops) op).terminated = true ↔
        ((stepM (runM m0 ops) op).treasures_found = (runM m0 ops).treasures_found + 1 ∧
          (stepM (runM m0 ops) op).treasures_found = (runM m0 ops).n_treasures))) := by
  have h0 := init_robots_from_ok s positions (Master.init s) 1 m0 hinit
  refine ⟨?_, ?_, ?_⟩
  · rw [h0.1]
    rfl
  · exact fun h => stepM_of_terminated _ op h
  · exact fun h => stepM_terminated_iff _ op h hsync

/-- Witness for **C2 (amended)**: the 1×1 configuration, no operations yet,
and a `bat` command whose channel times out. -/
theorem C2_termination_exactly_witness :
    mOneCell.terminated = false ∧
    ((runM mOneCell []).terminated = true →
      stepM (runM mOneCell []) (MOp.sendCmd 1 "bat" ChannelOutcome.timeout)
        = runM mOneCell []) ∧
    ((runM mOneCell []).terminated = false →
      ((stepM (runM mOneCell []) (MOp.sendCmd 1 "bat" ChannelOutcome.timeout)).terminated
          = true ↔
        ((stepM (runM mOneCell []) (MOp.sendCmd 1 "bat" ChannelOutcome.timeout)).treasures_found
            = (runM mOneCell []).treasures_found + 1 ∧
          (stepM (runM mOneCell []) (MOp.sendCmd 1 "bat" ChannelOutcome.timeout)).treasures_found
            = (runM mOneCell []).n_treasures))) :=
  C2_termination_exactly sOneCell [(0, 0)] mOneCell []
    (MOp.sendCmd 1 "bat" ChannelOutcome.timeout) rfl trivial

/-- **C3 counterexample**: starting from the spawned 1×1 configuration
(counter 1, one discovered position), a `sendCommand` whose reply carries
the treasure marker increments `treasures_found` to 2 but leaves
`discovered_treasures` untouched, so the counter no longer equals the
cardinality of the set. -/
theorem C3_counterexample :
    init_robots sOneCell [(0, 0)] = InitResult.ok mOneCell ∧
    (stepM mOneCell
      (MOp.sendCmd 1 "tr" (ChannelOutcome.reply "Treasure at 0 0"))).treasures_found = 2 ∧
    (stepM mOneCell
      (MOp.sendCmd 1 "tr"
        (ChannelOutcome.reply "Treasure at 0 0"))).discovered_treasures.card = 1 :=
  ⟨rfl, by decide, by decide⟩

/-- **C3 (amended)**: after initialization and any sequence of orchestrator
operations, `treasures_found` is at least `|discovered_treasures|` (the
treasure-marker path of `send_command` increments the counter without
extending the set, so equality can be lost but never the other direction),
and the counter never decreases across any further operation. -/
theorem C3_ledger_invariant (s : Sensor) (positions : List (Int × Int)) (m0 : Master)
    (ops : List MOp) (hinit : init_robots s positions = .ok m0) :
    (runM m0 ops).discovered_treasures.card ≤ (runM m0 ops).treasures_found ∧
    ∀ op : MOp, (runM m0 ops).treasures_found ≤ (stepM (runM m0 ops) op).treasures_found := by
  have h0 := init_robots_from_ok s positions (Master.init s) 1 m0 hinit
  have hbase : m0.discovered_treasures.card ≤ m0.treasures_found := by
    apply h0.2
    show (∅ : Finset (Int × Int)).card ≤ 0
    simp
  exact ⟨runM_ledger ops m0 hbase, fun op => (stepM_ledger (runM m0 ops) op).1⟩

/-- Witness for **C3 (amended)**: the 1×1 configuration after the
set-skipping treasure reply. -/
theorem C3_ledger_invariant_witness :
    (runM mOneCell
      [MOp.sendCmd 1 "tr" (ChannelOutcome.reply "Treasure at 0 0")]).discovered_treasures.card
        ≤ (runM mOneCell
            [MOp.sendCmd 1 "tr" (ChannelOutcome.reply "Treasure at 0 0")]).treasures_found ∧
    ∀ op : MOp,
      (runM mOneCell
        [MOp.sendCmd 1 "tr" (ChannelOutcome.reply "Treasure at 0 0")]).treasures_found
          ≤ (stepM (runM mOneCell
              [MOp.sendCmd 1 "tr" (ChannelOutcome.reply "Treasure at 0 0")]) op).treasures_found :=
  C3_ledger_invariant sOneCell [(0, 0)] mOneCell
    [MOp.sendCmd 1 "tr" (ChannelOutcome.reply "Treasure at 0 0")] rfl

/-- **C4 counterexample**: with an obstacle at `(1,1)`, the start list
`[(0,0), (1,1)]` makes the orchestrator exit with status 1 — but only after
robot 1 has already been spawned for the valid first position, so the
number of spawned agent processes is 1, not 0 as the claim requires. -/
theorem C4_counterexample :
    (init_robots sObstacle11 [(0, 0), (1, 1)]).exitCode? = some 1 ∧
    (init_robots sObstacle11 [(0, 0), (1, 1)]).getMaster.robots.length = 1 := by decide

/-- **C4 (amended)**: start positions are validated one at a time,
interleaved with spawning: if some start position is an obstacle or
duplicates an earlier one, the orchestrator exits with status 1, having
spawned exactly the robots of the longest valid leading segment of the
list (so agents *can* already have been spawned when validation fails). -/
theorem C4_validation_interleaved (s : Sensor) (positions : List (Int × Int))
    (hbad : allValidStarts s [] positions = false) :
    (init_robots s positions).exitCode? = some 1 ∧
    (init_robots s positions).getMaster.robots.length = validRunLen s [] positions := by
  have h := init_robots_from_invalid s positions (Master.init s) 1 hbad
  refine ⟨h.1, ?_⟩
  show (init_robots_from s (Master.init s) 1 positions).getMaster.robots.length
      = validRunLen s [] positions
  rw [h.2]
  simp [Master.init]

/-- Witness for **C4 (amended)** on the concrete failing start list. -/
theorem C4_validation_interleaved_witness :
    (init_robots sObstacle11 [(0, 0), (1, 1), (0, 1)]).exitCode? = some 1 ∧
    (init_robots sObstacle11 [(0, 0), (1, 1), (0, 1)]).getMaster.robots.length
      = validRunLen sObstacle11 [] [(0, 0), (1, 1), (0, 1)] :=
  C4_validation_interleaved sObstacle11 [(0, 0), (1, 1), (0, 1)] (by decide)

/-- Witness for **C6 (amended)** at the concrete spawn state `robInit` and
a trace with a tick, a refill and a move. -/
theorem C6_battery_invariant_witness :
    (0 ≤ (runRobot (Robot.init 1 (0, 0) 100 sOneCell)
        [REvent.sig RSig.sigalrm, REvent.sig RSig.sigusr1]).battery ∧
      (runRobot (Robot.init 1 (0, 0) 100 sOneCell)
        [REvent.sig RSig.sigalrm, REvent.sig RSig.sigusr1]).battery ≤ 100) ∧
    (∀ (r : Robot) (e : REvent), 0 ≤ r.battery →
      r.battery < (robot_step r e).battery →
      e = REvent.sig RSig.sigusr1 ∧ (robot_step r e).battery = 100) :=
  C6_battery_invariant sOneCell 1 (0, 0) 100 (by decide) (by decide)
    [REvent.sig RSig.sigalrm, REvent.sig RSig.sigusr1]


